import Mathlib

/-!
Verification of the NEAR report contract (src/contract/src/lib.rs).

The contract state is a struct with a greeting `message : String`, a map
`reports : UnorderedMap<usize, Report>` and an `owner : AccountId`.  We embed
account ids as strings, the map as an association list with unique keys
(lookup by key, insert replaces the value at an existing key and appends a
fresh one, remove drops the entry with the key), and the ambient
`env::signer_account_id()` as an explicit `signer` argument to every method.

A method that panics on the host (the `unwrap` in `get_report`, the
`assert_eq` in `delete_report`) aborts the call and reverts every state
change, so fallible methods return `Except CallError`; the host-level
semantics `exec` keeps the old state on an error.
-/

namespace NearReport

/-- The Report struct of lib.rs: id, author and four free-form text fields. -/
structure Report where
  id : Nat
  author : String
  done_today : String
  goal_tomorrow : String
  blocker : String
  word_appreciation : String
  deriving DecidableEq, Repr

/-- Lookup of a key (UnorderedMap::get): the value stored at the key, if any. -/
def mapGet : List (Nat × Report) → Nat → Option Report
  | [], _ => none
  | p :: t, k => if p.1 = k then some p.2 else mapGet t k

/-- Insert of a key-value pair (UnorderedMap::insert): replaces the value when
the key is already present, otherwise appends a new entry. -/
def mapInsert : List (Nat × Report) → Nat → Report → List (Nat × Report)
  | [], k, v => [(k, v)]
  | p :: t, k, v => if p.1 = k then (k, v) :: t else p :: mapInsert t k v

/-- Removal of a key (UnorderedMap::remove): keys of an UnorderedMap are
unique, so dropping every entry with the key removes exactly the entry stored
under it. -/
def mapRemove (m : List (Nat × Report)) (k : Nat) : List (Nat × Report) :=
  m.filter (fun p => p.1 != k)

/-- The errors a contract call can abort with: the `unwrap` panic of
`get_report` on a missing id, and the `assert_eq` panic of `delete_report`
for a non-owner caller. -/
inductive CallError where
  | notFound
  | permissionDenied
  deriving DecidableEq, Repr

/-- The contract struct of lib.rs: greeting message, report map, owner. -/
structure Contract where
  message : String
  reports : List (Nat × Report)
  owner : String
  deriving DecidableEq, Repr

/-- DEFAULT_MESSAGE of lib.rs. -/
def DEFAULT_MESSAGE : String := "Hello"

/-- Contract::default: default greeting, empty report map, owner set to the
signer account id of the constructing call. -/
def Contract.default (signer : String) : Contract :=
  { message := DEFAULT_MESSAGE, reports := [], owner := signer }

/-- Contract::get_greeting: returns the stored message. -/
def get_greeting (c : Contract) : String :=
  c.message

/-- Contract::set_greeting: replaces the stored message (the log line has no
state effect). -/
def set_greeting (c : Contract) (message : String) : Contract :=
  { c with message := message }

/-- Contract::add_report: builds a Report with id equal to the current map
size and author equal to the signer, inserts it under that id and returns
the id. -/
def add_report (c : Contract) (signer : String)
    (done_today goal_tomorrow blocker word_appreciation : String) :
    Nat × Contract :=
  let report : Report :=
    { id := c.reports.length
      author := signer
      done_today := done_today
      goal_tomorrow := goal_tomorrow
      blocker := blocker
      word_appreciation := word_appreciation }
  (report.id, { c with reports := mapInsert c.reports report.id report })

/-- Contract::get_report: `self.reports.get(&id).unwrap()`; the unwrap panics
when the id is absent. -/
def get_report (c : Contract) (id : Nat) : Except CallError Report :=
  match mapGet c.reports id with
  | some r => Except.ok r
  | none => Except.error CallError.notFound

/-- Contract::update_report: builds a Report with the given id and author
equal to the signer of this call and inserts it under the id, with no
existence or ownership check. -/
def update_report (c : Contract) (signer : String) (id : Nat)
    (done_today goal_tomorrow blocker word_appreciation : String) : Contract :=
  let report : Report :=
    { id := id
      author := signer
      done_today := done_today
      goal_tomorrow := goal_tomorrow
      blocker := blocker
      word_appreciation := word_appreciation }
  { c with reports := mapInsert c.reports id report }

/-- Contract::delete_report: asserts that the signer equals the owner
(panicking with PermissionDenied otherwise), then removes the id. -/
def delete_report (c : Contract) (signer : String) (id : Nat) :
    Except CallError Contract :=
  if signer = c.owner then
    Except.ok { c with reports := mapRemove c.reports id }
  else
    Except.error CallError.permissionDenied

/-- One public contract call, with the signer account id of the call made
explicit. -/
inductive Op where
  | getGreeting (caller : String)
  | setGreeting (caller message : String)
  | addReport (caller done_today goal_tomorrow blocker word_appreciation : String)
  | getReport (caller : String) (id : Nat)
  | updateReport (caller : String) (id : Nat)
      (done_today goal_tomorrow blocker word_appreciation : String)
  | deleteReport (caller : String) (id : Nat)

/-- Host-level effect of a call on the contract state: a view leaves the
state unchanged, and a call that panics reverts to the state before it. -/
def exec (c : Contract) : Op → Contract
  | Op.getGreeting _ => c
  | Op.setGreeting _ m => set_greeting c m
  | Op.addReport s a g b w => (add_report c s a g b w).2
  | Op.getReport _ _ => c
  | Op.updateReport s id a g b w => update_report c s id a g b w
  | Op.deleteReport s id =>
    match delete_report c s id with
    | Except.ok c2 => c2
    | Except.error _ => c

/-- Running a sequence of calls from a state. -/
def run (c : Contract) (ops : List Op) : Contract :=
  ops.foldl exec c

/-- A state is reachable when some call sequence produces it from a freshly
constructed contract. -/
def Reachable (c : Contract) : Prop :=
  ∃ signer ops, run (Contract.default signer) ops = c

/-- Every key present in the report map equals the id field of the record
stored under it. -/
def InvIdKey (c : Contract) : Prop :=
  ∀ p ∈ c.reports, p.2.id = p.1

/-- The call sequence of the C1 counterexample: two adds followed by a delete
of id 0 by the owner. -/
def c1ops : List Op :=
  [Op.addReport "owner" "a" "g" "b" "w",
   Op.addReport "owner" "a" "g" "b" "w",
   Op.deleteReport "owner" 0]

/-- The reachable state of the C1 counterexample: its report map holds one
record, stored under key 1, while its size is 1. -/
def c1bad : Contract :=
  run (Contract.default "owner") c1ops

/-- Looking up the key just inserted yields the value just inserted. -/
theorem mapGet_insert_self (m : List (Nat × Report)) (k : Nat) (v : Report) :
    mapGet (mapInsert m k v) k = some v := by
  induction m with
  | nil => simp [mapInsert, mapGet]
  | cons p t ih =>
    by_cases h : p.1 = k
    · simp [mapInsert, h, mapGet]
    · simp [mapInsert, h, mapGet, ih]

/-- A key carried by no entry of the map has no value. -/
theorem mapGet_eq_none (m : List (Nat × Report)) (k : Nat)
    (h : ∀ p ∈ m, p.1 ≠ k) : mapGet m k = none := by
  induction m with
  | nil => rfl
  | cons p t ih =>
    simp only [mapGet]
    rw [if_neg (h p (List.mem_cons_self p t))]
    exact ih fun q hq => h q (List.mem_cons_of_mem p hq)

/-- Looking up a key just removed yields nothing. -/
theorem mapGet_remove_self (m : List (Nat × Report)) (k : Nat) :
    mapGet (mapRemove m k) k = none := by
  apply mapGet_eq_none
  intro p hp
  have h := List.mem_filter.mp hp
  simpa using h.2

/-- Removing an absent key leaves the map unchanged. -/
theorem mapRemove_eq_self (m : List (Nat × Report)) (k : Nat)
    (h : mapGet m k = none) : mapRemove m k = m := by
  induction m with
  | nil => rfl
  | cons p t ih =>
    simp only [mapGet] at h
    by_cases hp : p.1 = k
    · rw [if_pos hp] at h
      exact absurd h (by simp)
    · rw [if_neg hp] at h
      simp only [mapRemove, List.filter_cons] at ih ⊢
      simp [hp, ih h]

/-- Every entry of a map after an insert is either the inserted pair or an
entry of the map before it. -/
theorem mem_mapInsert (m : List (Nat × Report)) (k : Nat) (v : Report)
    (p : Nat × Report) (h : p ∈ mapInsert m k v) : p = (k, v) ∨ p ∈ m := by
  induction m with
  | nil => simpa [mapInsert] using h
  | cons q t ih =>
    by_cases hq : q.1 = k
    · simp only [mapInsert, if_pos hq, List.mem_cons] at h
      rcases h with h | h
      · exact Or.inl h
      · exact Or.inr (List.mem_cons_of_mem q h)
    · simp only [mapInsert, if_neg hq, List.mem_cons] at h
      rcases h with h | h
      · exact Or.inr (h ▸ List.mem_cons_self q t)
      · rcases ih h with h2 | h2
        · exact Or.inl h2
        · exact Or.inr (List.mem_cons_of_mem q h2)

/-- C9: for every store state and every string m, calling set_greeting m and
then get_greeting returns m. -/
theorem set_greeting_get_greeting (c : Contract) (m : String) :
    get_greeting (set_greeting c m) = m :=
  rfl

/-- C2: when no record with the id exists, get_report fails with NotFound;
and get_report never changes the store state, whether the id is present or
absent. -/
theorem get_report_not_found (c : Contract) (caller : String) (id : Nat) :
    (mapGet c.reports id = none →
      get_report c id = Except.error CallError.notFound) ∧
    exec c (Op.getReport caller id) = c :=
  ⟨fun h => by simp [get_report, h], rfl⟩

/-- Witness for C2 at a freshly constructed store and id 7. -/
theorem get_report_not_found_witness :
    get_report (Contract.default "carol") 7 = Except.error CallError.notFound ∧
    exec (Contract.default "carol") (Op.getReport "dave" 7) = Contract.default "carol" :=
  ⟨(get_report_not_found (Contract.default "carol") "dave" 7).1 rfl,
   (get_report_not_found (Contract.default "carol") "dave" 7).2⟩

/-- C4: update_report never fails (it is total), and afterwards the map holds
at the id a record with the four new field values and the caller of the
update as author, regardless of who created the record originally. -/
theorem update_report_overwrites (c : Contract) (caller : String) (id : Nat)
    (a g b w : String) :
    get_report (update_report c caller id a g b w) id =
      Except.ok { id := id, author := caller, done_today := a, goal_tomorrow := g,
                  blocker := b, word_appreciation := w } := by
  simp [update_report, get_report, mapGet_insert_self]

/-- C5: add_report returns an id equal to the number of stored reports before
the insert, and afterwards get_report on that id returns a record carrying
the four inputs and the caller as author. -/
theorem add_report_returns_new_record (c : Contract) (caller a g b w : String) :
    (add_report c caller a g b w).1 = c.reports.length ∧
    get_report (add_report c caller a g b w).2 (add_report c caller a g b w).1 =
      Except.ok { id := c.reports.length, author := caller, done_today := a,
                  goal_tomorrow := g, blocker := b, word_appreciation := w } :=
  ⟨rfl, by simp [add_report, get_report, mapGet_insert_self]⟩

/-- C8: the owner is set at construction to the constructing caller, and
every operation leaves the owner unchanged, for all inputs and callers. -/
theorem owner_set_once_and_immutable :
    (∀ signer, (Contract.default signer).owner = signer) ∧
    (∀ c op, (exec c op).owner = c.owner) := by
  refine ⟨fun _ => rfl, fun c op => ?_⟩
  cases op with
  | getGreeting _ => rfl
  | setGreeting _ m => rfl
  | addReport s a g b w => rfl
  | getReport _ _ => rfl
  | updateReport s id a g b w => rfl
  | deleteReport s id => by_cases h : s = c.owner <;> simp [exec, delete_report, h]

/-- C10: the owner check of delete_report comes before the presence check, so
a non-owner caller deleting an absent id still fails with PermissionDenied. -/
theorem delete_absent_id_still_denied (c : Contract) (caller : String) (id : Nat)
    (hc : caller ≠ c.owner) (hid : mapGet c.reports id = none) :
    delete_report c caller id = Except.error CallError.permissionDenied := by
  simp [delete_report, hc]

/-- Witness for C10: a non-owner deleting id 5 of a fresh store is denied. -/
theorem delete_absent_id_still_denied_witness :
    delete_report (Contract.default "erin") "mallory" 5 =
      Except.error CallError.permissionDenied :=
  delete_absent_id_still_denied (Contract.default "erin") "mallory" 5 (by decide) rfl

/-- C3: delete_report fails with PermissionDenied exactly when the caller is
not the owner, and such a failing call leaves the whole state, in particular
the report map, the greeting and the owner, exactly as before. -/
theorem delete_report_permission_check (c : Contract) (caller : String) (id : Nat) :
    (delete_report c caller id = Except.error CallError.permissionDenied ↔
      caller ≠ c.owner) ∧
    (caller ≠ c.owner → exec c (Op.deleteReport caller id) = c) := by
  by_cases h : caller = c.owner
  · exact ⟨by simp [delete_report, h], fun hn => absurd h hn⟩
  · exact ⟨by simp [delete_report, h], fun _ => by simp [exec, delete_report, h]⟩

/-- Witness for C3 at a fresh store, a non-owner caller and id 0. -/
theorem delete_report_permission_check_witness :
    delete_report (Contract.default "frank") "mallory" 0 =
      Except.error CallError.permissionDenied ∧
    exec (Contract.default "frank") (Op.deleteReport "mallory" 0) =
      Contract.default "frank" :=
  ⟨(delete_report_permission_check (Contract.default "frank") "mallory" 0).1.mpr
      (by decide),
   (delete_report_permission_check (Contract.default "frank") "mallory" 0).2
      (by decide)⟩

/-- C6: delete_report called by the owner succeeds; the record at the id is
removed, so a subsequent get_report on the id fails with NotFound, and when
no record with the id was present the call leaves the state unchanged. -/
theorem delete_report_by_owner (c : Contract) (id : Nat) :
    delete_report c c.owner id =
      Except.ok { c with reports := mapRemove c.reports id } ∧
    get_report (exec c (Op.deleteReport c.owner id)) id =
      Except.error CallError.notFound ∧
    (mapGet c.reports id = none → exec c (Op.deleteReport c.owner id) = c) := by
  refine ⟨by simp [delete_report], ?_, ?_⟩
  · simp [exec, delete_report, get_report, mapGet_remove_self]
  · intro h
    simp [exec, delete_report, mapRemove_eq_self c.reports id h]

/-- Witness for C6: owner deletion of an absent id is a no-op on a fresh
store. -/
theorem delete_report_by_owner_witness :
    exec (Contract.default "grace") (Op.deleteReport "grace" 3) =
      Contract.default "grace" :=
  (delete_report_by_owner (Contract.default "grace") 3).2.2 rfl

/-- C7: every key of the report map equals the id field of the record stored
under it, in the initial state and after any operation preserving it. -/
theorem id_key_invariant (signer : String) (c : Contract) (op : Op) :
    InvIdKey (Contract.default signer) ∧ (InvIdKey c → InvIdKey (exec c op)) := by
  constructor
  · intro p hp
    exact absurd hp (List.not_mem_nil p)
  · intro h
    cases op with
    | getGreeting _ => exact h
    | setGreeting _ m => exact h
    | getReport _ _ => exact h
    | addReport s a g b w =>
      intro p hp
      rcases mem_mapInsert _ _ _ p hp with h2 | h2
      · rw [h2]
      · exact h p h2
    | updateReport s id a g b w =>
      intro p hp
      rcases mem_mapInsert _ _ _ p hp with h2 | h2
      · rw [h2]
      · exact h p h2
    | deleteReport s id =>
      by_cases hs : s = c.owner
      · intro p hp
        simp only [exec, delete_report, if_pos hs] at hp
        exact h p (List.mem_of_mem_filter hp)
      · simp only [exec, delete_report, if_neg hs]
        exact h

/-- Witness for C7: the invariant holds on a fresh store and after one add. -/
theorem id_key_invariant_witness :
    InvIdKey (exec (Contract.default "heidi") (Op.addReport "alice" "a" "g" "b" "w")) :=
  (id_key_invariant "heidi" (Contract.default "heidi")
      (Op.addReport "alice" "a" "g" "b" "w")).2
    (fun p hp => absurd hp (List.not_mem_nil p))

/-- C1 counterexample: a reachable state (two adds, then the owner deletes
id 0) whose report map holds key 1 while its size is 1, so the next
add_report returns id 1, a key that was already present before the call. -/
theorem add_report_id_collision :
    Reachable c1bad ∧
    mapGet c1bad.reports (add_report c1bad "alice" "x" "y" "z" "u").1 =
      some { id := 1, author := "owner", done_today := "a", goal_tomorrow := "g",
             blocker := "b", word_appreciation := "w" } :=
  ⟨⟨"owner", c1ops, rfl⟩, by decide⟩

/-- C1 (amended): whenever every key of the report map is smaller than the
number of stored reports (as in any state reached without deletions), the id
returned by add_report was not present in the map before the call. -/
theorem add_report_fresh_id (c : Contract) (caller a g b w : String)
    (h : ∀ k ∈ c.reports.map Prod.fst, k < c.reports.length) :
    mapGet c.reports (add_report c caller a g b w).1 = none := by
  apply mapGet_eq_none
  intro p hp
  exact Nat.ne_of_lt (h p.1 (List.mem_map_of_mem Prod.fst hp))

/-- Witness for the amended C1 at a store holding one report under key 0. -/
theorem add_report_fresh_id_witness :
    mapGet (exec (Contract.default "ivan") (Op.addReport "alice" "a" "g" "b" "w")).reports
      (add_report (exec (Contract.default "ivan") (Op.addReport "alice" "a" "g" "b" "w"))
        "bob" "x" "y" "z" "u").1 = none :=
  add_report_fresh_id
    (exec (Contract.default "ivan") (Op.addReport "alice" "a" "g" "b" "w"))
    "bob" "x" "y" "z" "u" (by decide)

end NearReport
